import Mathlib

/-!
Shallow embedding of the cake CRUD service
(`cakes_app/services/cake_service.py`, plus the identifier-path GET handler of
`cakes_app/controllers/cake_controller.py`).

Documents are Python dicts, modelled as insertion-ordered association lists;
the MongoDB collection is the list of stored documents in store-native order.
External nondeterminism is passed explicitly: the string produced by
`uuid.uuid4()` is a parameter, and exceptions raised by the external store
calls are parameters of type `Option _`.
-/

/-- Field values of a cake document: JSON strings and numbers. -/
inductive Value where
  | vStr (s : String)
  | vNum (n : Int)
  deriving DecidableEq, Repr

/-- A Python dict holding a cake document: insertion-ordered association list
from field names to values. -/
abbrev Doc := List (String × Value)

/-- Python membership test `field in data` on a dict. -/
def Doc.hasKey : Doc → String → Bool
  | [], _ => false
  | p :: rest, k => if p.1 = k then true else Doc.hasKey rest k

/-- Python key lookup `data[k]`: value of the first pair carrying key `k`. -/
def Doc.get : Doc → String → Option Value
  | [], _ => Option.none
  | p :: rest, k => if p.1 = k then some p.2 else Doc.get rest k

/-- Python dict assignment `data[k] = v`: overwrite the pair in place when the
key is present, otherwise append the new pair at the end. -/
def Doc.set : Doc → String → Value → Doc
  | [], k, v => [(k, v)]
  | p :: rest, k, v => if p.1 = k then (k, v) :: rest else p :: Doc.set rest k v

/-- Python `existing.update(data)`: apply the assignments of `data` to
`existing`, in insertion order. -/
def Doc.updateWith : Doc → Doc → Doc
  | d, [] => d
  | d, p :: rest => Doc.updateWith (Doc.set d p.1 p.2) rest

/-- Insertion-ordered key list of a dict. -/
def Doc.keys (d : Doc) : List String := d.map (fun p => p.1)

/-- The document collection: stored records in store-native order. -/
abbrev Store := List Doc

/-- Modelled from the spec (section 2, Document Store Adapter, an external
collaborator): `find_one` with an identifier filter returns the first stored
record whose `_id` field equals the given string, if any. -/
def Store.find_one : Store → String → Option Doc
  | [], _ => Option.none
  | d :: rest, cakeId =>
      if Doc.get d "_id" = some (Value.vStr cakeId) then some d
      else Store.find_one rest cakeId

/-- Modelled from the spec (section 2): `insert_one` appends the record to the
collection. -/
def Store.insert_one (s : Store) (d : Doc) : Store := s ++ [d]

/-- Modelled from the spec (section 2): `delete_one` with an identifier filter
removes the first matching record and reports the deleted count (0 or 1). -/
def Store.delete_one : Store → String → Store × Nat
  | [], _ => ([], 0)
  | d :: rest, cakeId =>
      if Doc.get d "_id" = some (Value.vStr cakeId) then (rest, 1)
      else
        let res := Store.delete_one rest cakeId
        (d :: res.1, res.2)

/-- Modelled from the spec (section 2): `find_one_and_replace` with an
identifier filter replaces the first matching record wholesale with the given
record, and leaves the collection unchanged when nothing matches. -/
def Store.find_one_and_replace : Store → String → Doc → Store
  | [], _, _ => []
  | d :: rest, cakeId, r =>
      if Doc.get d "_id" = some (Value.vStr cakeId) then r :: rest
      else d :: Store.find_one_and_replace rest cakeId r

/-- A service result: response payload plus HTTP status code. A bare payload
returned by the Python code carries the default status 200. -/
structure Resp where
  payload : Doc
  status : Nat
  deriving DecidableEq, Repr

/-- The required fields of add_cake (cake_service.py line 72). -/
def required_fields : List String := ["name", "comment", "imageUrl", "yumFactor"]

/-- The allowed fields of add_cake (line 77): the required fields plus the
identifier field. -/
def allowed_fields : List String := required_fields ++ ["_id"]

/-- Exception classes the external lookup call may raise: the ValueError class
that get_cake_by_id catches, or any other exception class, by name. -/
inductive LookupExc where
  | valueError
  | otherExc (name : String)
  deriving DecidableEq, Repr

/-- The value get_cake_by_id hands back: a found record in serialized form
(json_util.dumps then loads round-trips, so the record itself is carried),
Python None, or the (payload, 404) pair built by the ValueError handler. -/
inductive GetResult where
  | found (d : Doc)
  | pyNone
  | errResp (r : Resp)
  deriving DecidableEq, Repr

/-- CakeService.get_cake_by_id (cake_service.py lines 44-58): look the record
up by its `_id`; a ValueError raised inside the try block is caught and the
404 payload returned, while any other exception propagates (Except.error).
`exc` is the exception, if any, that the external lookup raises. -/
def get_cake_by_id (s : Store) (cakeId : String) (exc : Option LookupExc) :
    Except LookupExc GetResult :=
  match exc with
  | some LookupExc.valueError =>
      Except.ok (GetResult.errResp ⟨[("message", Value.vStr "Cake not found")], 404⟩)
  | some e => Except.error e
  | Option.none =>
      match Store.find_one s cakeId with
      | some c => Except.ok (GetResult.found c)
      | Option.none => Except.ok GetResult.pyNone

/-- Cake.get in cake_controller.py (lines 79-90): a truthy service result is
deserialized and returned with status 200, a falsy one (None) becomes the 404
payload. The tuple produced by the ValueError handler is truthy, so it reaches
json_util.loads, which raises a TypeError on a non-string argument. -/
def controller_get (s : Store) (cakeId : String) (exc : Option LookupExc) :
    Except LookupExc Resp :=
  match get_cake_by_id s cakeId exc with
  | Except.error e => Except.error e
  | Except.ok (GetResult.found c) => Except.ok ⟨c, 200⟩
  | Except.ok GetResult.pyNone =>
      Except.ok ⟨[("message", Value.vStr "Cake not found")], 404⟩
  | Except.ok (GetResult.errResp _) => Except.error (LookupExc.otherExc "TypeError")

/-- Outcome of CakeService.add_cake: the returned response, the collection
after the call, and the caller-supplied mapping after the call (the code
mutates the caller's dict in place at line 83). -/
structure AddOutcome where
  resp : Resp
  store : Store
  data : Doc
  deriving DecidableEq, Repr

/-- CakeService.add_cake (cake_service.py lines 60-90). `freshId` is the
string form of the value uuid.uuid4() yields on this call; `insErr` is
`some msg` when the external insert_one call raises an exception whose
str() is `msg`, and `Option.none` when the insert succeeds. -/
def add_cake (s : Store) (data : Doc) (freshId : String) (insErr : Option String) :
    AddOutcome :=
  if !(required_fields.all fun f => Doc.hasKey data f) then
    ⟨⟨[("message", Value.vStr "Missing required fields in the data")], 400⟩, s, data⟩
  else
    let unexpected := (Doc.keys data).filter (fun f => !(List.contains allowed_fields f))
    if unexpected ≠ [] then
      ⟨⟨[("message", Value.vStr ("Unexpected fields: " ++ String.intercalate ", " unexpected))],
          400⟩, s, data⟩
    else
      let data2 := Doc.set data "_id" (Value.vStr freshId)
      match insErr with
      | Option.none =>
          ⟨⟨[("message", Value.vStr "Cake added successfully"), ("_id", Value.vStr freshId)],
              200⟩, Store.insert_one s data2, data2⟩
      | some e =>
          ⟨⟨[("message", Value.vStr "Server error while adding the cake"),
              ("error", Value.vStr e)], 500⟩, s, data2⟩

/-- CakeService.delete_cake (cake_service.py lines 92-104): delete by
identifier; 200 confirmation when deleted_count is 1, 404 otherwise. Returns
the response together with the collection after the call. -/
def delete_cake (s : Store) (cakeId : String) : Resp × Store :=
  let res := Store.delete_one s cakeId
  if res.2 = 1 then (⟨[("message", Value.vStr "Cake deleted successfully")], 200⟩, res.1)
  else (⟨[("message", Value.vStr "Cake not found")], 404⟩, res.1)

/-- CakeService.update_cake (cake_service.py lines 106-122): fetch the record
by identifier; on a hit, merge `data` over it with dict.update and replace the
stored record with the merged result; otherwise 404 with no mutation. Returns
the response together with the collection after the call. -/
def update_cake (s : Store) (cakeId : String) (data : Doc) : Resp × Store :=
  match Store.find_one s cakeId with
  | some existing_cake =>
      (⟨[("message", Value.vStr "Cake updated successfully")], 200⟩,
        Store.find_one_and_replace s cakeId (Doc.updateWith existing_cake data))
  | Option.none => (⟨[("message", Value.vStr "Cake not found")], 404⟩, s)

/-! Helper lemmas about dict and store operations. -/

theorem Doc.get_set_self (d : Doc) (k : String) (v : Value) :
    Doc.get (Doc.set d k v) k = some v := by
  induction d with
  | nil => simp [Doc.set, Doc.get]
  | cons p rest ih =>
      by_cases h : p.1 = k
      · simp [Doc.set, Doc.get, h]
      · simp [Doc.set, Doc.get, h, ih]

theorem Doc.get_set_ne (d : Doc) (k kq : String) (v : Value) (h : kq ≠ k) :
    Doc.get (Doc.set d k v) kq = Doc.get d kq := by
  induction d with
  | nil => simp [Doc.set, Doc.get, Ne.symm h]
  | cons p rest ih =>
      by_cases hp : p.1 = k
      · simp [Doc.set, Doc.get, hp, Ne.symm h]
      · simp [Doc.set, Doc.get, hp, ih]

theorem Doc.hasKey_iff_mem (d : Doc) (k : String) :
    Doc.hasKey d k = true ↔ k ∈ Doc.keys d := by
  induction d with
  | nil => simp [Doc.hasKey, Doc.keys]
  | cons p rest ih =>
      simp only [Doc.hasKey, Doc.keys, List.map_cons, List.mem_cons]
      simp only [Doc.keys] at ih
      by_cases hp : p.1 = k
      · simp [hp]
      · simp [hp, Ne.symm hp, ih]

theorem Doc.get_updateWith_not_mem (data : Doc) : ∀ (d : Doc) (k : String),
    Doc.hasKey data k = false → Doc.get (Doc.updateWith d data) k = Doc.get d k := by
  induction data with
  | nil => intro d k _; rfl
  | cons p rest ih =>
      intro d k h
      simp only [Doc.hasKey] at h
      by_cases hp : p.1 = k
      · rw [if_pos hp] at h; cases h
      · rw [if_neg hp] at h
        simp only [Doc.updateWith]
        rw [ih _ _ h]
        exact Doc.get_set_ne d p.1 k p.2 (fun hh => hp hh.symm)

theorem Doc.get_updateWith_mem (data : Doc) : ∀ (d : Doc) (k : String) (v : Value),
    (Doc.keys data).Nodup → Doc.get data k = some v →
    Doc.get (Doc.updateWith d data) k = some v := by
  induction data with
  | nil => intro d k v _ h; simp [Doc.get] at h
  | cons p rest ih =>
      intro d k v hnd h
      have hnd2 : p.1 ∉ Doc.keys rest ∧ (Doc.keys rest).Nodup := by
        simpa [Doc.keys] using hnd
      by_cases hp : p.1 = k
      · subst hp
        have hv : p.2 = v := by simpa [Doc.get] using h
        have hkr : Doc.hasKey rest p.1 = false := by
          cases hc : Doc.hasKey rest p.1
          · rfl
          · exact absurd ((Doc.hasKey_iff_mem rest p.1).mp hc) hnd2.1
        simp only [Doc.updateWith]
        rw [Doc.get_updateWith_not_mem rest _ _ hkr, Doc.get_set_self, hv]
      · have hr : Doc.get rest k = some v := by simpa [Doc.get, hp] using h
        simp only [Doc.updateWith]
        exact ih _ _ _ hnd2.2 hr

theorem Store.find_one_eq_none (s : Store) (cakeId : String)
    (h : ∀ d ∈ s, ¬ Doc.get d "_id" = some (Value.vStr cakeId)) :
    Store.find_one s cakeId = Option.none := by
  induction s with
  | nil => rfl
  | cons d rest ih =>
      simp only [Store.find_one]
      rw [if_neg (h d (List.mem_cons_self d rest))]
      exact ih (fun x hx => h x (List.mem_cons_of_mem d hx))

theorem Store.delete_one_eq_none (s : Store) (cakeId : String)
    (h : ∀ d ∈ s, ¬ Doc.get d "_id" = some (Value.vStr cakeId)) :
    Store.delete_one s cakeId = (s, 0) := by
  induction s with
  | nil => rfl
  | cons d rest ih =>
      simp [Store.delete_one, h d (List.mem_cons_self d rest),
        ih (fun x hx => h x (List.mem_cons_of_mem d hx))]

theorem Store.find_one_append (s : Store) (r : Doc) (cakeId : String)
    (hs : Store.find_one s cakeId = Option.none)
    (hr : Doc.get r "_id" = some (Value.vStr cakeId)) :
    Store.find_one (s ++ [r]) cakeId = some r := by
  induction s with
  | nil => simp [Store.find_one, hr]
  | cons d rest ih =>
      by_cases hc : Doc.get d "_id" = some (Value.vStr cakeId)
      · simp [Store.find_one, hc] at hs
      · have hs2 : Store.find_one rest cakeId = Option.none := by
          simpa [Store.find_one, hc] using hs
        show Store.find_one (d :: (rest ++ [r])) cakeId = some r
        simp only [Store.find_one]
        rw [if_neg hc]
        exact ih hs2

theorem Store.map_id_find_one_and_replace (s : Store) (cakeId : String) (r ex : Doc)
    (hex : Store.find_one s cakeId = some ex)
    (hid : Doc.get r "_id" = Doc.get ex "_id") :
    List.map (fun d => Doc.get d "_id") (Store.find_one_and_replace s cakeId r) =
      List.map (fun d => Doc.get d "_id") s := by
  induction s with
  | nil => cases hex
  | cons d rest ih =>
      by_cases hc : Doc.get d "_id" = some (Value.vStr cakeId)
      · have hde : d = ex := by simpa [Store.find_one, hc] using hex
        simp only [Store.find_one_and_replace, List.map_cons]
        rw [if_pos hc, List.map_cons, hid, hde]
      · have hex2 : Store.find_one rest cakeId = some ex := by
          simpa [Store.find_one, hc] using hex
        simp [Store.find_one_and_replace, hc, ih hex2]

/-! Characterisations of add_cake on validated input, shared below. -/

theorem mem_allowed_of_filter_eq_nil (l : List String)
    (hok : l.filter (fun g => !(List.contains allowed_fields g)) = []) :
    ∀ x ∈ l, x ∈ allowed_fields := by
  intro x hx
  by_contra hxa
  have hmem : x ∈ l.filter (fun g => !(List.contains allowed_fields g)) := by
    apply List.mem_filter.mpr
    refine ⟨hx, ?_⟩
    simp [hxa]
  rw [hok] at hmem
  cases hmem

theorem filter_not_contains_eq_nil (l : List String)
    (hall : ∀ x ∈ l, x ∈ allowed_fields) :
    l.filter (fun g => !(List.contains allowed_fields g)) = [] := by
  induction l with
  | nil => rfl
  | cons a rest ih =>
      have ha : a ∈ allowed_fields := hall a (List.mem_cons_self a rest)
      have hc : List.contains allowed_fields a = true := by simp [ha]
      simp [List.filter_cons, hc, ha, ih]
      exact fun x hx => hall x (List.mem_cons_of_mem a hx)

theorem add_cake_ok_eq (s : Store) (data : Doc) (freshId : String)
    (hreq : (required_fields.all fun g => Doc.hasKey data g) = true)
    (hok : (Doc.keys data).filter (fun g => !(List.contains allowed_fields g)) = []) :
    add_cake s data freshId Option.none =
      ⟨⟨[("message", Value.vStr "Cake added successfully"), ("_id", Value.vStr freshId)], 200⟩,
        s ++ [Doc.set data "_id" (Value.vStr freshId)],
        Doc.set data "_id" (Value.vStr freshId)⟩ := by
  simp [add_cake, hreq, hok, Store.insert_one]
  exact mem_allowed_of_filter_eq_nil (Doc.keys data) hok

theorem add_cake_err_eq (s : Store) (data : Doc) (freshId e : String)
    (hreq : (required_fields.all fun g => Doc.hasKey data g) = true)
    (hok : (Doc.keys data).filter (fun g => !(List.contains allowed_fields g)) = []) :
    add_cake s data freshId (some e) =
      ⟨⟨[("message", Value.vStr "Server error while adding the cake"),
          ("error", Value.vStr e)], 500⟩, s,
        Doc.set data "_id" (Value.vStr freshId)⟩ := by
  simp [add_cake, hreq, hok]
  exact mem_allowed_of_filter_eq_nil (Doc.keys data) hok

/-! Concrete documents used by the witnesses. -/

/-- A mapping with all four required fields, a caller-supplied identifier, and
no other field. -/
def c3data : Doc :=
  [("_id", Value.vStr "client-id"), ("name", Value.vStr "Victoria Sponge"),
   ("comment", Value.vStr "classic"), ("imageUrl", Value.vStr "v.jpg"),
   ("yumFactor", Value.vNum 5)]

/-- A mapping with all four required fields plus one field outside the
whitelist. -/
def c2data : Doc :=
  [("name", Value.vStr "New Cake"), ("comment", Value.vStr "New Comment"),
   ("imageUrl", Value.vStr "new-image.jpg"), ("yumFactor", Value.vNum 5),
   ("extraField", Value.vStr "nope")]

/-- A stored record with identifier "a1" and the four data fields. -/
def c5cake : Doc :=
  [("_id", Value.vStr "a1"), ("name", Value.vStr "Cake 1"),
   ("comment", Value.vStr "Comment 1"), ("imageUrl", Value.vStr "image1.jpg"),
   ("yumFactor", Value.vNum 4)]

/-- A small stored record with identifier "a". -/
def c7cake : Doc := [("_id", Value.vStr "a"), ("name", Value.vStr "Cake 1")]

/-! The claims. -/

/-- C1: when the input mapping misses at least one of the four required
fields, add_cake returns the missing-required-fields 400 response and changes
neither the collection nor the caller mapping, whatever other fields the
mapping carries (extra non-whitelisted ones included) — the required-field
check runs first, so the whitelist check is never reached. -/
theorem claim1_missing_required_fields (s : Store) (data : Doc) (freshId : String)
    (insErr : Option String) (f : String) (hf : f ∈ required_fields)
    (hmiss : Doc.hasKey data f = false) :
    add_cake s data freshId insErr =
      ⟨⟨[("message", Value.vStr "Missing required fields in the data")], 400⟩, s, data⟩ := by
  have hall : (required_fields.all fun g => Doc.hasKey data g) = false := by
    cases hc : required_fields.all fun g => Doc.hasKey data g
    · rfl
    · have hfc := List.all_eq_true.mp hc f hf
      rw [hmiss] at hfc
      cases hfc
  simp [add_cake, hall]

/-- C1 witness: a mapping missing comment, imageUrl and yumFactor, and at the
same time carrying a non-whitelisted field, is rejected with the
missing-fields message and nothing is stored. -/
theorem claim1_witness :
    "comment" ∈ required_fields ∧
    Doc.hasKey [("name", Value.vStr "a"), ("bogus", Value.vStr "x")] "comment" = false ∧
    add_cake [] [("name", Value.vStr "a"), ("bogus", Value.vStr "x")] "u1" Option.none =
      ⟨⟨[("message", Value.vStr "Missing required fields in the data")], 400⟩, [],
        [("name", Value.vStr "a"), ("bogus", Value.vStr "x")]⟩ :=
  ⟨by decide, by decide,
    claim1_missing_required_fields [] [("name", Value.vStr "a"), ("bogus", Value.vStr "x")]
      "u1" Option.none "comment" (by decide) (by decide)⟩

/-- C2: when the mapping has all four required fields and at least one field
outside the whitelist, add_cake returns a 400 whose message names exactly the
offending fields (in the mapping's insertion order), and neither the
collection nor the caller mapping changes. -/
theorem claim2_unexpected_fields (s : Store) (data : Doc) (freshId : String)
    (insErr : Option String)
    (hreq : (required_fields.all fun g => Doc.hasKey data g) = true)
    (hex : (Doc.keys data).filter (fun g => !(List.contains allowed_fields g)) ≠ []) :
    add_cake s data freshId insErr =
      ⟨⟨[("message", Value.vStr ("Unexpected fields: " ++ String.intercalate ", "
          ((Doc.keys data).filter (fun g => !(List.contains allowed_fields g)))))], 400⟩,
        s, data⟩ := by
  simp [add_cake, hreq]
  intro hall
  exact absurd (filter_not_contains_eq_nil (Doc.keys data) hall) hex

/-- C2 witness: a mapping with the four required fields plus "extraField" is
rejected with a message naming exactly that field, and nothing is stored. -/
theorem claim2_witness :
    (required_fields.all fun g => Doc.hasKey c2data g) = true ∧
    ((Doc.keys c2data).filter fun g => !(List.contains allowed_fields g)) = ["extraField"] ∧
    add_cake [] c2data "u2" Option.none =
      ⟨⟨[("message", Value.vStr "Unexpected fields: extraField")], 400⟩, [], c2data⟩ := by
  refine ⟨by decide, by decide, ?_⟩
  have h := claim2_unexpected_fields [] c2data "u2" Option.none (by decide) (by decide)
  rw [h]
  decide

/-- C3: on a mapping passing both checks, add_cake writes the freshly
generated identifier string over any caller-supplied one, appends the
resulting record to the collection, and returns the confirmation message
together with that identifier at the default 200 status. -/
theorem claim3_add_success (s : Store) (data : Doc) (freshId : String)
    (hreq : (required_fields.all fun g => Doc.hasKey data g) = true)
    (hok : (Doc.keys data).filter (fun g => !(List.contains allowed_fields g)) = []) :
    add_cake s data freshId Option.none =
      ⟨⟨[("message", Value.vStr "Cake added successfully"), ("_id", Value.vStr freshId)], 200⟩,
        s ++ [Doc.set data "_id" (Value.vStr freshId)],
        Doc.set data "_id" (Value.vStr freshId)⟩
    ∧ Doc.get (Doc.set data "_id" (Value.vStr freshId)) "_id" = some (Value.vStr freshId) :=
  ⟨add_cake_ok_eq s data freshId hreq hok, Doc.get_set_self data "_id" (Value.vStr freshId)⟩

/-- C3 witness: a valid mapping carrying a client identifier is stored with
the generated identifier "97093e9c" in its place, and the response carries
that identifier. -/
theorem claim3_witness :
    (required_fields.all fun g => Doc.hasKey c3data g) = true ∧
    ((Doc.keys c3data).filter fun g => !(List.contains allowed_fields g)) = [] ∧
    (add_cake [] c3data "97093e9c" Option.none =
      ⟨⟨[("message", Value.vStr "Cake added successfully"), ("_id", Value.vStr "97093e9c")],
          200⟩, [] ++ [Doc.set c3data "_id" (Value.vStr "97093e9c")],
        Doc.set c3data "_id" (Value.vStr "97093e9c")⟩
    ∧ Doc.get (Doc.set c3data "_id" (Value.vStr "97093e9c")) "_id"
      = some (Value.vStr "97093e9c")) :=
  ⟨by decide, by decide, claim3_add_success [] c3data "97093e9c" (by decide) (by decide)⟩

/-- C4: round-trip — adding a valid mapping and then fetching by the
identifier add_cake returned yields the stored record, whose four data fields
equal the submitted values. `hfresh` states that the freshly generated UUID
collides with no stored identifier. -/
theorem claim4_round_trip (s : Store) (data : Doc) (freshId : String)
    (hreq : (required_fields.all fun g => Doc.hasKey data g) = true)
    (hok : (Doc.keys data).filter (fun g => !(List.contains allowed_fields g)) = [])
    (hfresh : Store.find_one s freshId = Option.none) :
    Doc.get (Resp.payload (AddOutcome.resp (add_cake s data freshId Option.none))) "_id"
      = some (Value.vStr freshId)
    ∧ get_cake_by_id (AddOutcome.store (add_cake s data freshId Option.none)) freshId
        Option.none
      = Except.ok (GetResult.found (Doc.set data "_id" (Value.vStr freshId)))
    ∧ ∀ f ∈ required_fields,
        Doc.get (Doc.set data "_id" (Value.vStr freshId)) f = Doc.get data f := by
  have hadd := add_cake_ok_eq s data freshId hreq hok
  refine ⟨?_, ?_, ?_⟩
  · rw [hadd]
    rfl
  · rw [hadd]
    have hfind := Store.find_one_append s (Doc.set data "_id" (Value.vStr freshId)) freshId
      hfresh (Doc.get_set_self data "_id" (Value.vStr freshId))
    simp [get_cake_by_id, hfind]
  · intro f hf
    have hf4 : f = "name" ∨ f = "comment" ∨ f = "imageUrl" ∨ f = "yumFactor" := by
      simpa [required_fields] using hf
    have hne : f ≠ "_id" := by rcases hf4 with rfl | rfl | rfl | rfl <;> decide
    exact Doc.get_set_ne data "_id" f (Value.vStr freshId) hne

/-- C4 witness: the round-trip on the Victoria Sponge mapping against an empty
store, with generated identifier "u4". -/
theorem claim4_witness :
    Store.find_one [] "u4" = Option.none ∧
    Doc.get (Resp.payload (AddOutcome.resp (add_cake [] c3data "u4" Option.none))) "_id"
      = some (Value.vStr "u4") ∧
    get_cake_by_id (AddOutcome.store (add_cake [] c3data "u4" Option.none)) "u4" Option.none
      = Except.ok (GetResult.found (Doc.set c3data "_id" (Value.vStr "u4"))) ∧
    Doc.get (Doc.set c3data "_id" (Value.vStr "u4")) "name" = Doc.get c3data "name" := by
  have h := claim4_round_trip [] c3data "u4" (by decide) (by decide) rfl
  exact ⟨rfl, h.1, h.2.1, h.2.2 "name" (by decide)⟩

/-- C5: on an existing record, update_cake returns the 200 confirmation and
replaces the stored record with the merge of the update mapping over it: a
field present in the mapping takes the mapping's value (fields not previously
present are added), and a field absent from it keeps the existing value — no
field whitelist is applied. `hnd` is the Python dict property that the
mapping's keys are distinct. -/
theorem claim5_update_merge (s : Store) (cakeId : String) (data ex : Doc)
    (hnd : (Doc.keys data).Nodup)
    (hex : Store.find_one s cakeId = some ex) :
    update_cake s cakeId data =
      (⟨[("message", Value.vStr "Cake updated successfully")], 200⟩,
        Store.find_one_and_replace s cakeId (Doc.updateWith ex data))
    ∧ (∀ k v, Doc.get data k = some v → Doc.get (Doc.updateWith ex data) k = some v)
    ∧ (∀ k, Doc.hasKey data k = false →
        Doc.get (Doc.updateWith ex data) k = Doc.get ex k) := by
  refine ⟨?_, ?_, ?_⟩
  · simp [update_cake, hex]
  · intro k v h
    exact Doc.get_updateWith_mem data ex k v hnd h
  · intro k h
    exact Doc.get_updateWith_not_mem data ex k h

/-- C5 witness: updating the stored record "a1" with the single-field mapping
name := "X" sets name to "X" and leaves comment, imageUrl and yumFactor at
their previous values. -/
theorem claim5_witness :
    (Doc.keys [("name", Value.vStr "X")]).Nodup ∧
    Store.find_one [c5cake] "a1" = some c5cake ∧
    update_cake [c5cake] "a1" [("name", Value.vStr "X")] =
      (⟨[("message", Value.vStr "Cake updated successfully")], 200⟩,
        Store.find_one_and_replace [c5cake] "a1"
          (Doc.updateWith c5cake [("name", Value.vStr "X")])) ∧
    Doc.get (Doc.updateWith c5cake [("name", Value.vStr "X")]) "name"
      = some (Value.vStr "X") ∧
    Doc.get (Doc.updateWith c5cake [("name", Value.vStr "X")]) "comment"
      = Doc.get c5cake "comment" ∧
    Doc.get (Doc.updateWith c5cake [("name", Value.vStr "X")]) "imageUrl"
      = Doc.get c5cake "imageUrl" ∧
    Doc.get (Doc.updateWith c5cake [("name", Value.vStr "X")]) "yumFactor"
      = Doc.get c5cake "yumFactor" := by
  have h := claim5_update_merge [c5cake] "a1" [("name", Value.vStr "X")] c5cake
    (by decide) (by decide)
  exact ⟨by decide, by decide, h.1, h.2.1 "name" (Value.vStr "X") (by decide),
    h.2.2 "comment" (by decide), h.2.2 "imageUrl" (by decide),
    h.2.2 "yumFactor" (by decide)⟩

/-- C6: on an identifier matching zero stored records, the GET handler,
delete_cake and update_cake each produce the 404 "Cake not found" response,
and none of the three changes the collection (the lookup of get reads only;
delete and update return the collection unchanged). -/
theorem claim6_not_found_uniformity (s : Store) (cakeId : String) (data : Doc)
    (h : ∀ d ∈ s, ¬ Doc.get d "_id" = some (Value.vStr cakeId)) :
    controller_get s cakeId Option.none =
        Except.ok ⟨[("message", Value.vStr "Cake not found")], 404⟩
    ∧ delete_cake s cakeId = (⟨[("message", Value.vStr "Cake not found")], 404⟩, s)
    ∧ update_cake s cakeId data = (⟨[("message", Value.vStr "Cake not found")], 404⟩, s) := by
  have hf := Store.find_one_eq_none s cakeId h
  refine ⟨?_, ?_, ?_⟩
  · simp [controller_get, get_cake_by_id, hf]
  · simp [delete_cake, Store.delete_one_eq_none s cakeId h]
  · simp [update_cake, hf]

/-- C6 witness: against a store holding only record "a1", the identifier
"zzz" yields 404 from all three operations and the store is unchanged. -/
theorem claim6_witness :
    (∀ d ∈ [c5cake], ¬ Doc.get d "_id" = some (Value.vStr "zzz")) ∧
    (controller_get [c5cake] "zzz" Option.none =
        Except.ok ⟨[("message", Value.vStr "Cake not found")], 404⟩
    ∧ delete_cake [c5cake] "zzz" =
        (⟨[("message", Value.vStr "Cake not found")], 404⟩, [c5cake])
    ∧ update_cake [c5cake] "zzz" [("name", Value.vStr "X")] =
        (⟨[("message", Value.vStr "Cake not found")], 404⟩, [c5cake])) :=
  ⟨by decide, claim6_not_found_uniformity [c5cake] "zzz" [("name", Value.vStr "X")]
    (by decide)⟩

/-- C7 counterexample: an update whose mapping itself carries the "_id" key
rewrites the stored identifier — update_cake on the record with identifier
"a", given the mapping with single pair ("_id", "b"), leaves the store
holding identifier "b" instead of "a". -/
theorem claim7_counterexample :
    (update_cake [c7cake] "a" [("_id", Value.vStr "b")]).2 =
        [[("_id", Value.vStr "b"), ("name", Value.vStr "Cake 1")]]
    ∧ ¬ Doc.get [("_id", Value.vStr "b"), ("name", Value.vStr "Cake 1")] "_id"
        = some (Value.vStr "a") := by decide

/-- C7 amended: identifiers are assigned by add_cake at creation, and Update
preserves every stored identifier provided the update mapping does not itself
carry the "_id" key; the code applies no whitelist on update, so a mapping
containing "_id" overwrites the stored identifier. -/
theorem claim7_id_immutable (s : Store) (cakeId : String) (data : Doc)
    (h : Doc.hasKey data "_id" = false) :
    List.map (fun d => Doc.get d "_id") (update_cake s cakeId data).2 =
      List.map (fun d => Doc.get d "_id") s := by
  cases hex : Store.find_one s cakeId with
  | none => simp [update_cake, hex]
  | some ex =>
      have hid : Doc.get (Doc.updateWith ex data) "_id" = Doc.get ex "_id" :=
        Doc.get_updateWith_not_mem data ex "_id" h
      simp only [update_cake, hex]
      exact Store.map_id_find_one_and_replace s cakeId (Doc.updateWith ex data) ex hex hid

/-- C7 witness: updating record "a" with an "_id"-free mapping leaves the
stored identifiers unchanged. -/
theorem claim7_witness :
    Doc.hasKey [("name", Value.vStr "X")] "_id" = false ∧
    List.map (fun d => Doc.get d "_id")
        (update_cake [c7cake] "a" [("name", Value.vStr "X")]).2 =
      List.map (fun d => Doc.get d "_id") [c7cake] :=
  ⟨by decide, claim7_id_immutable [c7cake] "a" [("name", Value.vStr "X")] (by decide)⟩

/-- C8: when the insert raises, add_cake on a validated mapping returns the
500 server-error response whose payload carries the underlying failure
description in its "error" field and contains no identifier field. -/
theorem claim8_insert_failure (s : Store) (data : Doc) (freshId e : String)
    (hreq : (required_fields.all fun g => Doc.hasKey data g) = true)
    (hok : (Doc.keys data).filter (fun g => !(List.contains allowed_fields g)) = []) :
    add_cake s data freshId (some e) =
      ⟨⟨[("message", Value.vStr "Server error while adding the cake"),
          ("error", Value.vStr e)], 500⟩, s,
        Doc.set data "_id" (Value.vStr freshId)⟩
    ∧ Doc.hasKey [("message", Value.vStr "Server error while adding the cake"),
        ("error", Value.vStr e)] "_id" = false :=
  ⟨add_cake_err_eq s data freshId e hreq hok, rfl⟩

/-- C8 witness: a failing insert on the valid mapping yields the 500 payload
carrying "boom" and no identifier. -/
theorem claim8_witness :
    (required_fields.all fun g => Doc.hasKey c3data g) = true ∧
    ((Doc.keys c3data).filter fun g => !(List.contains allowed_fields g)) = [] ∧
    (add_cake [] c3data "u8" (some "boom") =
      ⟨⟨[("message", Value.vStr "Server error while adding the cake"),
          ("error", Value.vStr "boom")], 500⟩, [],
        Doc.set c3data "_id" (Value.vStr "u8")⟩
    ∧ Doc.hasKey [("message", Value.vStr "Server error while adding the cake"),
        ("error", Value.vStr "boom")] "_id" = false) :=
  ⟨by decide, by decide, claim8_insert_failure [] c3data "u8" "boom" (by decide) (by decide)⟩

/-- C9 counterexample: an exception class other than ValueError raised by the
lookup propagates out of get_cake_by_id instead of being mapped to the 404
payload. -/
theorem claim9_counterexample :
    get_cake_by_id [] "bad" (some (LookupExc.otherExc "ServerSelectionTimeoutError")) =
      Except.error (LookupExc.otherExc "ServerSelectionTimeoutError") := rfl

/-- C9 amended: only a ValueError raised by the lookup is caught and mapped to
the "Cake not found" 404 payload — making malformed-identifier and not-found
cases indistinguishable in that case — while any other exception class
propagates to the caller. -/
theorem claim9_valueerror_caught (s : Store) (cakeId : String) :
    get_cake_by_id s cakeId (some LookupExc.valueError) =
      Except.ok (GetResult.errResp ⟨[("message", Value.vStr "Cake not found")], 404⟩)
    ∧ ∀ n, get_cake_by_id s cakeId (some (LookupExc.otherExc n)) =
        Except.error (LookupExc.otherExc n) :=
  ⟨rfl, fun _ => rfl⟩

/-- C10: add_cake writes the freshly generated identifier into the caller's
mapping in place before inserting, so after any call on a mapping passing
validation — whether the insert succeeded or raised — the caller's mapping
carries the generated identifier under "_id". -/
theorem claim10_caller_mapping_mutated (s : Store) (data : Doc) (freshId : String)
    (insErr : Option String)
    (hreq : (required_fields.all fun g => Doc.hasKey data g) = true)
    (hok : (Doc.keys data).filter (fun g => !(List.contains allowed_fields g)) = []) :
    AddOutcome.data (add_cake s data freshId insErr) =
        Doc.set data "_id" (Value.vStr freshId)
    ∧ Doc.get (Doc.set data "_id" (Value.vStr freshId)) "_id" = some (Value.vStr freshId) := by
  refine ⟨?_, Doc.get_set_self data "_id" (Value.vStr freshId)⟩
  cases insErr with
  | none => rw [add_cake_ok_eq s data freshId hreq hok]
  | some e => rw [add_cake_err_eq s data freshId e hreq hok]

/-- C10 witness: after a failing insert of the valid mapping, the caller's
mapping carries the generated identifier "u10". -/
theorem claim10_witness :
    (required_fields.all fun g => Doc.hasKey c3data g) = true ∧
    ((Doc.keys c3data).filter fun g => !(List.contains allowed_fields g)) = [] ∧
    (AddOutcome.data (add_cake [] c3data "u10" (some "boom")) =
        Doc.set c3data "_id" (Value.vStr "u10")
    ∧ Doc.get (Doc.set c3data "_id" (Value.vStr "u10")) "_id" = some (Value.vStr "u10")) :=
  ⟨by decide, by decide,
    claim10_caller_mapping_mutated [] c3data "u10" (some "boom") (by decide) (by decide)⟩
